import Mathlib

/-!
Verification of the paired image/keypoint transform pipeline in
`human36m/utils/data_transforms.py`.

Images are modelled as a width, a height and a total pixel function on
integer coordinates (PIL zero-fills out-of-bounds regions produced by
`crop`/`expand`, which the embedding reproduces with explicit bounds
checks).  Keypoint targets are lists of rational coordinate pairs,
mirroring the float numpy array the code mutates; the vectorised numpy
statements become per-row maps.  Randomness (`random.randint`,
`random.random`) is made explicit: each draw becomes a parameter of the
embedded call.
-/

/-- A PIL image: width, height, and pixel lookup.  Pixels of a canonical
image are `0` outside `[0, w) x [0, h)`; the crop/expand operations below
enforce that zero fill themselves. -/
structure Img where
  w : ℕ
  h : ℕ
  px : ℤ → ℤ → ℤ

/-- `img.crop((l, u, r, b))` from PIL: the result has size
`(r - l, b - u)` and pixel `(x, y)` reads the source at `(x + l, y + u)`,
zero outside the source bounds. -/
def pilCrop (img : Img) (l u r b : ℤ) : Img :=
  ⟨(r - l).toNat, (b - u).toNat,
   fun x y =>
     if 0 ≤ x + l ∧ x + l < (img.w : ℤ) ∧ 0 ≤ y + u ∧ y + u < (img.h : ℤ)
     then img.px (x + l) (y + u) else 0⟩

/-- `ImageOps.expand(img, border=p, fill=0)`: a zero border of `p` pixels
on all four sides; the content shifts by `(p, p)`. -/
def pilExpand (p : ℕ) (img : Img) : Img :=
  ⟨img.w + 2 * p, img.h + 2 * p,
   fun x y =>
     if (p : ℤ) ≤ x ∧ x < (p : ℤ) + img.w ∧ (p : ℤ) ≤ y ∧ y < (p : ℤ) + img.h
     then img.px (x - p) (y - p) else 0⟩

/-- `img.transpose(Image.FLIP_LEFT_RIGHT)`: mirror around the vertical
axis, pixel `(x, y)` reads `(w - 1 - x, y)`. -/
def pilFlipLR (img : Img) : Img :=
  ⟨img.w, img.h, fun x y => img.px ((img.w : ℤ) - 1 - x) y⟩

/-- `img.resize((ow, oh), interpolation)`.  The claims only inspect the
output size; pixel content stands in for the interpolation kernel with a
nearest-neighbour sample, which is irrelevant to every theorem below. -/
def pilResize (ow oh : ℕ) (img : Img) : Img :=
  ⟨ow, oh, fun x y => img.px (x * img.w / (ow : ℤ)) (y * img.h / (oh : ℤ))⟩

/-- A keypoint target: the `N x 2` float numpy array as a list of
`(x, y)` rational pairs. -/
abbrev Target := List (ℚ × ℚ)

/-- `Scale.__call__` (`data_transforms.py` lines 78-102).  `size` is
either a single int (shorter-edge mode, `Sum.inl`) or an explicit
`(w, h)` pair (`Sum.inr`).  In shorter-edge mode the code multiplies the
keypoint columns by the OUTPUT dimensions `ow`/`oh` (`target[:, 0] *= ow`);
in pair mode it multiplies by the ratios `size[0]/w`, `size[1]/h`.
`int(self.size * h / w)` on positive ints is floor division. -/
def scaleCall (size : ℕ ⊕ ℕ × ℕ) (img : Img) (target : Target) :
    Img × Target :=
  match size with
  | Sum.inl s =>
    let w := img.w
    let h := img.h
    if (w ≤ h ∧ w = s) ∨ (h ≤ w ∧ h = s) then (img, target)
    else if w < h then
      let ow := s
      let oh := s * h / w
      (pilResize ow oh img,
       target.map (fun q => (q.1 * (ow : ℚ), q.2 * (oh : ℚ))))
    else
      let oh := s
      let ow := s * w / h
      (pilResize ow oh img,
       target.map (fun q => (q.1 * (ow : ℚ), q.2 * (oh : ℚ))))
  | Sum.inr p =>
    let w := img.w
    let h := img.h
    (pilResize p.1 p.2 img,
     target.map (fun q => (q.1 * ((p.1 : ℚ) / w), q.2 * ((p.2 : ℚ) / h))))

/-- Python `int()` on a real number: truncation toward zero. -/
def pyInt (q : ℚ) : ℤ := if 0 ≤ q then ⌊q⌋ else ⌈q⌉

/-- `RandomCrop.__init__` (lines 107-112): a scalar size `n` is
normalised to the pair `(int(n), int(n))`; a pair is stored as given.
The stored pair is unpacked as `th, tw = self.size` in the call. -/
def randomCropMkSize (size : ℚ ⊕ ℤ × ℤ) : ℤ × ℤ :=
  match size with
  | Sum.inl n => (pyInt n, pyInt n)
  | Sum.inr p => p

/-- `RandomCrop.__call__` (lines 114-136).  `x1`/`y1` are the values the
two `random.randint` draws returned (legal draws satisfy
`0 ≤ x1 ≤ w - tw` and `0 ≤ y1 ≤ h - th`).  Faithful quirks: the early
return tests `w == th and h == th` (both dimensions against `th`), the
image is expanded by `padding` but the keypoints are not shifted, and the
out-of-window resets compare the already re-based columns against
`x1 + tw` / `y1 + th`. -/
def randomCropCall (size : ℤ × ℤ) (padding : ℕ) (x1 y1 : ℤ)
    (img : Img) (target : Target) : Img × Target :=
  let img := if 0 < padding then pilExpand padding img else img
  let th := size.1
  let tw := size.2
  if (img.w : ℤ) = th ∧ (img.h : ℤ) = th then (img, target)
  else
    (pilCrop img x1 y1 (x1 + tw) (y1 + th),
     target.map (fun q =>
       let x := q.1 - (x1 : ℚ)
       let y := q.2 - (y1 : ℚ)
       let x := if x < 0 then 0 else x
       let y := if y < 0 then 0 else y
       let x := if (x1 : ℚ) + (tw : ℚ) < x then 0 else x
       let y := if (y1 : ℚ) + (th : ℚ) < y then 0 else y
       (x, y)))

/-- `np.max(target, axis=0)` componentwise, as a fold (defined for the
nonempty targets the code is called on; `headI` seeds the fold). -/
def npMax (l : List ℚ) : ℚ := l.foldl max l.headI

/-- `np.min(target, axis=0)` componentwise, as a fold. -/
def npMin (l : List ℚ) : ℚ := l.foldl min l.headI

/-- The crop box `CropToTarget.__call__` computes (lines 37-48): the
keypoint bounding box, expanded by `padding` on all sides only when the
whole expanded box stays inside `[0, w] x [0, h]`, otherwise left as is.
Returned as `((min_x, min_y), (max_x, max_y))`. -/
def ctBox (padding : ℕ) (w h : ℚ) (target : Target) : (ℚ × ℚ) × (ℚ × ℚ) :=
  let maxX := npMax (target.map Prod.fst)
  let maxY := npMax (target.map Prod.snd)
  let minX := npMin (target.map Prod.fst)
  let minY := npMin (target.map Prod.snd)
  let p : ℚ := padding
  if ¬(minX - p < 0 ∨ minY - p < 0 ∨ w < maxX + p ∨ h < maxY + p)
  then ((minX - p, minY - p), (maxX + p, maxY + p))
  else ((minX, minY), (maxX, maxY))

/-- `CropToTarget.__call__` (lines 36-64).  After the (possibly padded)
box is fixed: no-op when `w == max_x and h == max_y`; otherwise crop the
image to the box, re-base the keypoints by the box minimum, clamp
negative entries to 0, and reset entries exceeding `max_x` / `max_y`
(the box maxima, not the cropped width/height) to 0. -/
def cropToTargetCall (padding : ℕ) (img : Img) (target : Target) :
    Img × Target :=
  let box := ctBox padding (img.w : ℚ) (img.h : ℚ) target
  if (img.w : ℚ) = box.2.1 ∧ (img.h : ℚ) = box.2.2 then (img, target)
  else
    (pilCrop img ⌊box.1.1⌋ ⌊box.1.2⌋ ⌊box.2.1⌋ ⌊box.2.2⌋,
     target.map (fun q =>
       let x := q.1 - box.1.1
       let y := q.2 - box.1.2
       let x := if x < 0 then 0 else x
       let y := if y < 0 then 0 else y
       let x := if box.2.1 < x then 0 else x
       let y := if box.2.2 < y then 0 else y
       (x, y)))

/-- `RandomHorizontalFlip.__call__` (lines 143-150).  `r` is the value
`random.random()` returned (uniform on `[0, 1)`); the flip branch is
taken exactly when `r < 0.5`, and there it mirrors the image and maps
each keypoint `x` to `w - x`. -/
def randomHorizontalFlipCall (r : ℚ) (img : Img) (target : Target) :
    Img × Target :=
  if r < 1 / 2 then
    (pilFlipLR img, target.map (fun q => ((img.w : ℚ) - q.1, q.2)))
  else (img, target)

/-- The tensor loop of `Normalize.__call__` (lines 162-166):
`for t, m, s in zip(tensor, self.mean, self.std): t.sub_(m).div_(s)`.
The tensor is its list of channels; `zip` stops at the shortest of the
three sequences and the in-place updates leave every remaining channel
untouched. -/
def normalizeTensor : List (List ℚ) → List ℚ → List ℚ → List (List ℚ)
  | t :: ts, m :: ms, s :: ss =>
      t.map (fun x => (x - m) / s) :: normalizeTensor ts ms ss
  | ts, _, _ => ts

/-- A single-channel float tensor of shape `1 x H x W`, indexed as
`val y x`. -/
structure QTensor where
  h : ℕ
  w : ℕ
  val : ℤ → ℤ → ℚ

/-- `ToTensor.__call__` (lines 173-210) on a single-channel 8-bit PIL
image (mode `L`): the byte buffer is reshaped to `H x W x 1`, transposed
to `1 x H x W`, and divided by 255; the keypoint columns are divided by
the image width and height read from the converted tensor (equal to the
PIL width and height). -/
def toTensorCall (img : Img) (target : Target) : QTensor × Target :=
  (⟨img.h, img.w, fun y x => (img.px x y : ℚ) / 255⟩,
   target.map (fun q => (q.1 / (img.w : ℚ), q.2 / (img.h : ℚ))))

/-- `torch.FloatTensor.byte()` on the nonnegative range the round-trip
claim concerns: truncation, reduced into the byte range. -/
def pyByte (q : ℚ) : ℤ := ⌊q⌋ % 256

/-- `ToPILImage.__call__` (lines 217-240) on a float tensor of shape
`1 x H x W`: multiply by 255, cast to bytes, drop the channel axis and
rebuild a mode-`L` image; the keypoint target is returned exactly as it
was received. -/
def toPILImageCall (t : QTensor) (target : Target) : Img × Target :=
  (⟨t.w, t.h, fun x y => pyByte (t.val y x * 255)⟩, target)

/-- C1.  `Scale` with `size=256` on a `512 x 1024` image does resize to
`256 x 512`, but the keypoint `(256, 512)` comes out as
`(65536, 262144)` — the shorter-edge branch multiplies the keypoint
columns by the output dimensions themselves, not by the dimension
ratios, so the claimed ratio law (which demands `(128, 256)` here) fails
on the code. -/
theorem scale_intMode_keypoint_eval :
    (scaleCall (Sum.inl 256) ⟨512, 1024, fun _ _ => 0⟩
        [((256 : ℚ), 512)]).2 = [((65536 : ℚ), (262144 : ℚ))] ∧
    (scaleCall (Sum.inl 256) ⟨512, 1024, fun _ _ => 0⟩
        [((256 : ℚ), 512)]).1.w = 256 ∧
    (scaleCall (Sum.inl 256) ⟨512, 1024, fun _ _ => 0⟩
        [((256 : ℚ), 512)]).1.h = 512 ∧
    ((65536 : ℚ), (262144 : ℚ)) ≠ ((128 : ℚ), (256 : ℚ)) := by
  refine ⟨?_, rfl, rfl, by norm_num [Prod.ext_iff]⟩
  norm_num [scaleCall, pilResize]

/-- C2.  `RandomCrop` with size `(100, 100)` on a `300 x 300` image and
draws `x1 = y1 = 50` keeps the re-based keypoint `(130, 10)` even though
`130` exceeds the cropped width `100`: the reset compares the re-based
column against `x1 + tw = 150`, not against the cropped width, so the
claimed occlusion reset fails on the code. -/
theorem randomCrop_occlusionReset_eval :
    (randomCropCall ((100 : ℤ), (100 : ℤ)) 0 50 50 ⟨300, 300, fun _ _ => 0⟩
        [((180 : ℚ), 60)]).2 = [((130 : ℚ), (10 : ℚ))] ∧
    (randomCropCall ((100 : ℤ), (100 : ℤ)) 0 50 50 ⟨300, 300, fun _ _ => 0⟩
        [((180 : ℚ), 60)]).1.w = 100 ∧
    ¬((130 : ℚ) ≤ 100) := by
  refine ⟨?_, rfl, by norm_num⟩
  norm_num [randomCropCall, pilCrop]

/-- C3.  The in-bounds invariant fails on the code: `Scale` with
`size=256` on a `512 x 1024` image returns a `256 x 512` image yet maps
the in-bounds keypoint `(10, 10)` to `(2560, 5120)`, far outside
`[0, 256] x [0, 512]`. -/
theorem scale_boundsInvariant_violation_eval :
    (scaleCall (Sum.inl 256) ⟨512, 1024, fun _ _ => 0⟩
        [((10 : ℚ), 10)]).2 = [((2560 : ℚ), (5120 : ℚ))] ∧
    (scaleCall (Sum.inl 256) ⟨512, 1024, fun _ _ => 0⟩
        [((10 : ℚ), 10)]).1.w = 256 ∧
    (scaleCall (Sum.inl 256) ⟨512, 1024, fun _ _ => 0⟩
        [((10 : ℚ), 10)]).1.h = 512 ∧
    ¬((2560 : ℚ) ≤ 256) := by
  refine ⟨?_, rfl, rfl, by norm_num⟩
  norm_num [scaleCall, pilResize]

/-- C4.  `RandomCrop` with size `(th, tw) = (100, 200)` on a `200 x 100`
image (so `w = tw` and `h = th`) is NOT a no-op: the early return tests
`w == th and h == th`, so `200 == 100` fails, the crop machinery runs
with the forced draws `x1 = y1 = 0`, and the keypoint `(250, 50)` is
reset to `(0, 50)` instead of being returned unchanged. -/
theorem randomCrop_noopCheck_typo_eval :
    (randomCropCall ((100 : ℤ), (200 : ℤ)) 0 0 0 ⟨200, 100, fun _ _ => 0⟩
        [((250 : ℚ), 50)]).2 = [((0 : ℚ), (50 : ℚ))] ∧
    [((0 : ℚ), (50 : ℚ))] ≠ [((250 : ℚ), (50 : ℚ))] := by
  refine ⟨?_, by norm_num [Prod.ext_iff]⟩
  norm_num [randomCropCall, pilCrop]

/-- C5.  `RandomCrop` with `padding = 10` and size `(110, 120)` on a
`100 x 90` image (forced draws `x1 = y1 = 0`) returns the keypoint
`(50, 50)` unchanged, although the zero-fill border shifted the image
content by `(10, 10)`: the code never adds the padding offset to the
keypoints, so the claimed mapping to `(x + p - x1, y + p - y1) = (60, 60)`
fails and the keypoint frame no longer matches the output image. -/
theorem randomCrop_padding_frameMismatch_eval :
    (randomCropCall ((110 : ℤ), (120 : ℤ)) 10 0 0 ⟨100, 90, fun _ _ => 0⟩
        [((50 : ℚ), 50)]).2 = [((50 : ℚ), (50 : ℚ))] ∧
    (randomCropCall ((110 : ℤ), (120 : ℤ)) 10 0 0 ⟨100, 90, fun _ _ => 0⟩
        [((50 : ℚ), 50)]).1.w = 120 ∧
    [((50 : ℚ), (50 : ℚ))] ≠ [((60 : ℚ), (60 : ℚ))] := by
  refine ⟨?_, rfl, by norm_num [Prod.ext_iff]⟩
  norm_num [randomCropCall, pilExpand, pilCrop]

/-- C6.  The crop box of `CropToTarget` is expanded by the padding on all
four sides exactly when the fully padded box stays inside the image
(`min_x - p >= 0`, `min_y - p >= 0`, `max_x + p <= w`, `max_y + p <= h`),
and is otherwise left completely unpadded; in particular `padding = 10`
around the box `((5, 5), (50, 50))` in a `200 x 200` image takes the
no-padding branch because `5 - 10 < 0`. -/
theorem cropToTarget_padding_allOrNothing :
    (∀ (p : ℕ) (w h : ℚ) (tgt : Target),
        ctBox p w h tgt =
          if 0 ≤ npMin (tgt.map Prod.fst) - (p : ℚ) ∧
             0 ≤ npMin (tgt.map Prod.snd) - (p : ℚ) ∧
             npMax (tgt.map Prod.fst) + (p : ℚ) ≤ w ∧
             npMax (tgt.map Prod.snd) + (p : ℚ) ≤ h
          then ((npMin (tgt.map Prod.fst) - (p : ℚ),
                 npMin (tgt.map Prod.snd) - (p : ℚ)),
                (npMax (tgt.map Prod.fst) + (p : ℚ),
                 npMax (tgt.map Prod.snd) + (p : ℚ)))
          else ((npMin (tgt.map Prod.fst), npMin (tgt.map Prod.snd)),
                (npMax (tgt.map Prod.fst), npMax (tgt.map Prod.snd)))) ∧
    ctBox 10 200 200 [((5 : ℚ), 5), (50, 50)] =
      (((5 : ℚ), (5 : ℚ)), ((50 : ℚ), (50 : ℚ))) := by
  constructor
  · intro p w h tgt
    simp only [ctBox, not_or, not_lt]
  · norm_num [ctBox, npMin, npMax]

/-- C9.  `RandomHorizontalFlip` makes one draw `r`; when `r < 0.5` the
output image is the left-right mirror of the input (same size, pixel
`(x, y)` reads `(w - 1 - x, y)`) and each keypoint `(x, y)` becomes
`(w - x, y)` in order; otherwise both inputs come back unchanged. -/
theorem randomHorizontalFlip_spec (r : ℚ) (img : Img) (tgt : Target) :
    (r < 1 / 2 →
       (randomHorizontalFlipCall r img tgt).1.w = img.w ∧
       (randomHorizontalFlipCall r img tgt).1.h = img.h ∧
       (∀ x y : ℤ, (randomHorizontalFlipCall r img tgt).1.px x y =
          img.px ((img.w : ℤ) - 1 - x) y) ∧
       (randomHorizontalFlipCall r img tgt).2 =
         tgt.map (fun q => ((img.w : ℚ) - q.1, q.2))) ∧
    (¬r < 1 / 2 → randomHorizontalFlipCall r img tgt = (img, tgt)) := by
  constructor
  · intro hr
    unfold randomHorizontalFlipCall
    rw [if_pos hr]
    exact ⟨rfl, rfl, fun x y => rfl, rfl⟩
  · intro hr
    unfold randomHorizontalFlipCall
    rw [if_neg hr]

/-- Witness for C9 at the draws `r = 0` (flip) and `r = 3/4` (no-op) on a
`5 x 1` image with the single keypoint `(1, 2)`. -/
theorem randomHorizontalFlip_spec_witness :
    (randomHorizontalFlipCall 0 ⟨5, 1, fun _ _ => 0⟩ [((1 : ℚ), 2)]).2 =
      [((4 : ℚ), (2 : ℚ))] ∧
    randomHorizontalFlipCall (3 / 4) ⟨5, 1, fun _ _ => 0⟩ [((1 : ℚ), 2)] =
      (⟨5, 1, fun _ _ => 0⟩, [((1 : ℚ), 2)]) := by
  have h1 := (randomHorizontalFlip_spec 0 ⟨5, 1, fun _ _ => 0⟩
    [((1 : ℚ), 2)]).1 (by norm_num)
  have h2 := (randomHorizontalFlip_spec (3 / 4) ⟨5, 1, fun _ _ => 0⟩
    [((1 : ℚ), 2)]).2 (by norm_num)
  refine ⟨?_, h2⟩
  rw [h1.2.2.2]
  norm_num

/-- C7.  On an 8-bit image, `ToTensor` then `ToPILImage` restores every
pixel exactly (each value round-trips through `/255`, `*255` and the
byte cast) and the keypoints pass through `ToPILImage` unchanged, while
`ToTensor` had already rescaled them to fractional units `x/w`, `y/h`. -/
theorem toTensor_toPIL_roundtrip (img : Img) (tgt : Target)
    (hpx : ∀ x y : ℤ, 0 ≤ img.px x y ∧ img.px x y ≤ 255) :
    (∀ x y : ℤ,
       (toPILImageCall (toTensorCall img tgt).1
           (toTensorCall img tgt).2).1.px x y = img.px x y) ∧
    (toPILImageCall (toTensorCall img tgt).1
        (toTensorCall img tgt).2).1.w = img.w ∧
    (toPILImageCall (toTensorCall img tgt).1
        (toTensorCall img tgt).2).1.h = img.h ∧
    (toPILImageCall (toTensorCall img tgt).1
        (toTensorCall img tgt).2).2 = (toTensorCall img tgt).2 ∧
    (toTensorCall img tgt).2 =
      tgt.map (fun q => (q.1 / (img.w : ℚ), q.2 / (img.h : ℚ))) := by
  refine ⟨fun x y => ?_, rfl, rfl, rfl, rfl⟩
  have h := hpx x y
  show pyByte ((img.px x y : ℚ) / 255 * 255) = img.px x y
  rw [div_mul_cancel₀ _ (by norm_num : (255 : ℚ) ≠ 0)]
  unfold pyByte
  rw [Int.floor_intCast]
  exact Int.emod_eq_of_lt h.1 (by linarith [h.2])

/-- Witness for C7 on a constant `2 x 2` image of value 7 with one
keypoint. -/
theorem toTensor_toPIL_roundtrip_witness :
    (toPILImageCall (toTensorCall ⟨2, 2, fun _ _ => 7⟩ [((1 : ℚ), 1)]).1
        (toTensorCall ⟨2, 2, fun _ _ => 7⟩ [((1 : ℚ), 1)]).2).1.px 0 0 = 7 ∧
    (toPILImageCall (toTensorCall ⟨2, 2, fun _ _ => 7⟩ [((1 : ℚ), 1)]).1
        (toTensorCall ⟨2, 2, fun _ _ => 7⟩ [((1 : ℚ), 1)]).2).2 =
      (toTensorCall ⟨2, 2, fun _ _ => 7⟩ [((1 : ℚ), 1)]).2 := by
  have h := toTensor_toPIL_roundtrip ⟨2, 2, fun _ _ => 7⟩ [((1 : ℚ), 1)]
    (fun x y => ⟨by norm_num, by norm_num⟩)
  exact ⟨h.1 0 0, h.2.2.2.1⟩

/-- C8, counterexample.  `Normalize` with a 3-channel tensor but
1-entry mean/std raises nothing: it silently normalizes the first
channel only — `zip` truncates — leaving channels 2 and 3 untouched,
instead of the claimed `ConfigurationError`. -/
theorem normalize_mismatch_silent_eval :
    normalizeTensor [[(2 : ℚ)], [4], [6]] [1] [2] =
      [[(1 : ℚ) / 2], [4], [6]] := by
  norm_num [normalizeTensor]

/-- C8, amended.  `Normalize` performs no count check: the channel count
is preserved, and every channel past the first
`min(C, len(mean), len(std))` is returned exactly as it came in. -/
theorem normalize_zipTruncation (ts : List (List ℚ)) (ms ss : List ℚ) :
    (normalizeTensor ts ms ss).length = ts.length ∧
    (normalizeTensor ts ms ss).drop
        (min ts.length (min ms.length ss.length)) =
      ts.drop (min ts.length (min ms.length ss.length)) := by
  induction ts generalizing ms ss with
  | nil => cases ms <;> cases ss <;> simp [normalizeTensor]
  | cons t ts ih =>
    cases ms with
    | nil => exact ⟨rfl, rfl⟩
    | cons m ms =>
      cases ss with
      | nil => exact ⟨rfl, rfl⟩
      | cons s ss =>
        have h := ih ms ss
        refine ⟨?_, ?_⟩
        · simpa [normalizeTensor] using h.1
        · simp only [normalizeTensor, List.length_cons, Nat.succ_min_succ,
            List.drop_succ_cons]
          exact h.2

/-- C10.  `RandomCrop`'s constructor turns a scalar size `n` into the
pair `(int(n), int(n))`, and a call configured with the scalar behaves
exactly like one configured with that explicit pair on every input and
every pair of draws; on integer scalars `int` is the identity. -/
theorem randomCrop_scalar_size (n : ℚ) (padding : ℕ) (x1 y1 : ℤ)
    (img : Img) (tgt : Target) :
    randomCropMkSize (Sum.inl n) = (pyInt n, pyInt n) ∧
    randomCropCall (randomCropMkSize (Sum.inl n)) padding x1 y1 img tgt =
      randomCropCall (randomCropMkSize (Sum.inr (pyInt n, pyInt n)))
        padding x1 y1 img tgt ∧
    (∀ m : ℤ, pyInt (m : ℚ) = m) := by
  refine ⟨rfl, rfl, fun m => ?_⟩
  unfold pyInt
  split_ifs <;> simp
